import Mathlib

/-!
Shallow embedding of the background task scheduler in
`src/src-tauri/src/scheduler.rs` (an embedded SQLite-backed task scheduler).

The SQLite store is modelled as two lists of rows (`tasks`, `task_executions`);
SQL statements become list operations with the semantics of the queries in the
source (`WHERE` = filter, `ORDER BY` = sort, `LIMIT` = take, `UPDATE ... WHERE`
= map over matching rows, `COALESCE` = option fallback).  Timestamps are `Int`
(i64 milliseconds; the timestamp arithmetic of the source is modelled exactly,
the one explicitly saturating operation `saturating_sub` keeps its clamp).
Values produced by external libraries (serde_json decoding, the cron crate,
JSON serialisation of event payloads) are supplied by an explicit environment
`Env` of decoder functions, so theorems quantify over every possible decoder
behaviour.  UUID generation and `now_ms()` readings are passed in as explicit
arguments.
-/

/-- One row of the `tasks` table (struct `DbTaskRow` in the source). -/
structure DbTaskRow where
  id : String
  name : String
  description : Option String
  trigger_type : String
  trigger_config : String
  action_type : String
  action_config : String
  enabled : Bool
  last_run : Option Int
  next_run : Option Int
  metadata : Option String
  created_at : Int
  updated_at : Option Int
deriving DecidableEq, Repr

/-- One row of the `task_executions` table (also the shape of the API type
`ApiTaskExecution`, which the source reads straight off the row). -/
structure TaskExecRow where
  id : String
  task_id : String
  status : String
  started_at : Int
  completed_at : Option Int
  result : Option String
  error : Option String
  duration : Option Int
deriving DecidableEq, Repr

/-- The persistent store: the two SQLite tables created by `ensure_tables`. -/
structure Store where
  tasks : List DbTaskRow
  execs : List TaskExecRow
deriving DecidableEq, Repr

/-- `ApiTrigger`: tagged trigger payload, config kept as the raw string. -/
structure ApiTrigger where
  type : String
  config : String
deriving DecidableEq, Repr

/-- `ApiAction`: tagged action payload, config kept as the raw string. -/
structure ApiAction where
  type : String
  config : String
deriving DecidableEq, Repr

/-- `ApiTask` as returned to the host by `scheduler_get_task` /
`scheduler_get_all_tasks`.  `metadata` holds the re-serialised JSON value
(the source parses it with serde_json; parse failure yields `none`). -/
structure ApiTask where
  id : String
  name : String
  description : Option String
  trigger : ApiTrigger
  action : ApiAction
  enabled : Bool
  last_run : Option Int
  next_run : Option Int
  metadata : Option String
  created_at : Int
  updated_at : Option Int
deriving DecidableEq, Repr

/-- `NotificationActionConfig` (decoded fields actually used). -/
structure NotificationActionConfig where
  title : String
  body : String
  actionButton : Option String
  actionCallback : Option String
deriving DecidableEq, Repr

/-- `AgentTaskActionConfig` (decoded fields actually used). -/
structure AgentTaskActionConfig where
  prompt : String
  toolsAllowed : Option (List String)
  maxSteps : Option Int
deriving DecidableEq, Repr

/-- `WorkflowActionConfig`; the opaque `input` JSON value kept as a string. -/
structure WorkflowActionConfig where
  workflowId : String
  input : Option String
deriving DecidableEq, Repr

/-- Environment of external-library behaviour: serde_json decoders for the
trigger/action config strings, the cron crate's next-occurrence computation
(`Schedule::from_str` + `after`, wrapped by `cron_next_ms` in the source), the
JSON rendering of event payloads, and serde_json parsing of `metadata`.
Theorems are stated for an arbitrary `Env`. -/
structure Env where
  /-- `serde_json::from_str::<IntervalTriggerConfig>` projected to its only
  used field `seconds`; `none` models a decode failure. -/
  decodeIntervalSeconds : String → Option Int
  /-- `serde_json::from_str::<CronTriggerConfig>` projected to `expression`. -/
  decodeCronExpression : String → Option String
  /-- `cron_next_ms expr from_ms`: the cron crate's first occurrence strictly
  after `from_ms` of the 5-field expression (with implicit second `0`). -/
  cronNextMs : String → Int → Option Int
  /-- `serde_json::from_str::<NotificationActionConfig>`; `Except.error e`
  carries the serde error message rendered into `{e}`. -/
  decodeNotificationCfg : String → Except String NotificationActionConfig
  /-- `serde_json::from_str::<AgentTaskActionConfig>`. -/
  decodeAgentTaskCfg : String → Except String AgentTaskActionConfig
  /-- `serde_json::from_str::<WorkflowActionConfig>`. -/
  decodeWorkflowCfg : String → Except String WorkflowActionConfig
  /-- `serde_json::json!({title, body, actionButton, actionCallback}).to_string()`. -/
  renderNotificationPayload : NotificationActionConfig → String
  /-- `serde_json::json!({prompt, toolsAllowed, maxSteps}).to_string()`. -/
  renderAgentTaskPayload : AgentTaskActionConfig → String
  /-- `serde_json::json!({workflowId, input}).to_string()`. -/
  renderWorkflowPayload : WorkflowActionConfig → String
  /-- `serde_json::from_str::<serde_json::Value>` on the stored `metadata`
  text, `none` on parse failure (`.ok()` in `row_to_api_task`). -/
  parseMetadataJson : String → Option String

/-- Events emitted to the host via `app.emit` (fire-and-forget). -/
inductive Event where
  | task_started (id : String)
  | task_notification (payload : String)
  | task_agent_execute (payload : String)
  | task_workflow_execute (payload : String)
  | task_completed (id : String)
  | task_failed (id : String) (error : String)
deriving DecidableEq, Repr

/-- i64 `saturating_sub` (used for `duration = end_ms.saturating_sub(start_ms)`). -/
def i64SatSub (a b : Int) : Int :=
  let d := a - b
  if d < -(2 ^ 63) then -(2 ^ 63)
  else if d > 2 ^ 63 - 1 then 2 ^ 63 - 1
  else d

/-- Rust's `i64::clamp(lo, hi)`. -/
def rustClamp (x lo hi : Int) : Int :=
  if x < lo then lo else if x > hi then hi else x

/-- SQL `COALESCE(?, col)` for a NOT NULL column: supplied parameter if
non-null, else the row's prior value. -/
def coalesce {α : Type} (p : Option α) (old : α) : α :=
  p.getD old

/-- SQL `COALESCE(?, col)` for a nullable column. -/
def coalesceOpt {α : Type} (p old : Option α) : Option α :=
  match p with
  | some v => some v
  | none => old

/-- `compute_next_run(trigger_type, trigger_config, from_ms)`: pure trigger
evaluator.  `interval` with positive `seconds` yields `from_ms + seconds*1000`,
non-positive or undecodable configs yield `none`; `cron` defers to the cron
crate; `manual`, `event` and unknown types always yield `none`. -/
def compute_next_run (env : Env) (trigger_type trigger_config : String)
    (from_ms : Int) : Option Int :=
  match trigger_type with
  | "interval" =>
    match env.decodeIntervalSeconds trigger_config with
    | none => none
    | some seconds =>
      if seconds ≤ 0 then none
      else some (from_ms + seconds * 1000)
  | "cron" =>
    match env.decodeCronExpression trigger_config with
    | none => none
    | some expression => env.cronNextMs expression from_ms
  | "manual" => none
  | "event" => none
  | _ => none

/-- The `WHERE enabled = 1 AND next_run IS NOT NULL AND next_run <= ?` clause
of `list_due_tasks`. -/
def due_pred (now_ms : Int) (t : DbTaskRow) : Bool :=
  t.enabled && match t.next_run with
    | some nr => decide (nr ≤ now_ms)
    | none => false

/-- The `ORDER BY next_run ASC` comparison of `list_due_tasks` (all compared
rows have non-null `next_run`, so the default is never observed). -/
def next_run_le (a b : DbTaskRow) : Prop :=
  a.next_run.getD 0 ≤ b.next_run.getD 0

instance : DecidableRel next_run_le := fun a b =>
  inferInstanceAs (Decidable (_ ≤ _))

instance : IsTotal DbTaskRow next_run_le :=
  ⟨fun a b => Int.le_total _ _⟩

instance : IsTrans DbTaskRow next_run_le :=
  ⟨fun _ _ _ hab hbc => le_trans hab hbc⟩

/-- `list_due_tasks(conn, now_ms)`: the SQL query
`WHERE enabled = 1 AND next_run IS NOT NULL AND next_run <= ?
ORDER BY next_run ASC LIMIT 20`. -/
def list_due_tasks (store : Store) (now_ms : Int) : List DbTaskRow :=
  ((store.tasks.filter (due_pred now_ms)).insertionSort next_run_le).take 20

/-- `get_db_task(conn, id)`: `SELECT ... FROM tasks WHERE id = ?` via
`query_row ... .optional()`, i.e. the first matching row if any. -/
def get_db_task (store : Store) (id : String) : Option DbTaskRow :=
  store.tasks.find? fun t => t.id == id

/-- `row_to_api_task`. -/
def row_to_api_task (env : Env) (row : DbTaskRow) : ApiTask :=
  { id := row.id
    name := row.name
    description := row.description
    trigger := { type := row.trigger_type, config := row.trigger_config }
    action := { type := row.action_type, config := row.action_config }
    enabled := row.enabled
    last_run := row.last_run
    next_run := row.next_run
    metadata := row.metadata.bind env.parseMetadataJson
    created_at := row.created_at
    updated_at := row.updated_at }

/-- Outcome of the action dispatch inside `execute_task`: the mutable
`status` / `result_json` / `error` triple after the `match` on
`task.action_type`. -/
structure DispatchOutcome where
  status : String
  result : Option String
  error : Option String
deriving DecidableEq, Repr

/-- The action-dispatch `match` of `execute_task`, returning the final
status/result/error triple and the events emitted during dispatch. -/
def dispatch_action (env : Env) (action_type action_config : String) :
    DispatchOutcome × List Event :=
  match action_type with
  | "notification" =>
    match env.decodeNotificationCfg action_config with
    | Except.ok cfg =>
      let payload := env.renderNotificationPayload cfg
      (⟨"success", some payload, none⟩, [Event.task_notification payload])
    | Except.error e =>
      (⟨"failed", none, some ("invalid notification action config: " ++ e)⟩, [])
  | "agent_task" =>
    match env.decodeAgentTaskCfg action_config with
    | Except.ok cfg =>
      let payload := env.renderAgentTaskPayload cfg
      (⟨"success", some payload, none⟩, [Event.task_agent_execute payload])
    | Except.error e =>
      (⟨"failed", none, some ("invalid agent_task action config: " ++ e)⟩, [])
  | "workflow" =>
    match env.decodeWorkflowCfg action_config with
    | Except.ok cfg =>
      let payload := env.renderWorkflowPayload cfg
      (⟨"success", some payload, none⟩, [Event.task_workflow_execute payload])
    | Except.error e =>
      (⟨"failed", none, some ("invalid workflow action config: " ++ e)⟩, [])
  | "script" =>
    (⟨"failed", none, some "script action is not supported yet"⟩, [])
  | other =>
    (⟨"failed", none, some ("unknown action type: " ++ other)⟩, [])

/-- `execute_task(app, conn, task)`.  `exec_id` is the fresh UUID, `start_ms`
and `end_ms` the two `now_ms()` readings.  Performs the three writes of the
source in order: insert a `running` execution row, finalise it with the
dispatch outcome, then update the owning task's `last_run` / `next_run` /
`updated_at` — with no check of `task.enabled` anywhere. -/
def execute_task (env : Env) (store : Store) (task : DbTaskRow)
    (exec_id : String) (start_ms end_ms : Int) : Store × List Event :=
  let s1 : Store :=
    { store with execs := store.execs ++
        [{ id := exec_id, task_id := task.id, status := "running",
           started_at := start_ms, completed_at := none, result := none,
           error := none, duration := none }] }
  let out := dispatch_action env task.action_type task.action_config
  let duration := i64SatSub end_ms start_ms
  let s2 : Store :=
    { s1 with execs := s1.execs.map fun e =>
        if e.id == exec_id then
          { e with
            status := out.1.status
            completed_at := some end_ms
            result := out.1.result
            error := out.1.error
            duration := some duration }
        else e }
  let next_run := compute_next_run env task.trigger_type task.trigger_config end_ms
  let s3 : Store :=
    { s2 with tasks := s2.tasks.map fun t =>
        if t.id == task.id then
          { t with
            last_run := some end_ms
            next_run := next_run
            updated_at := some end_ms }
        else t }
  let finalEvents :=
    if out.1.status == "success" then [Event.task_completed task.id]
    else [Event.task_failed task.id (out.1.error.getD "unknown error")]
  (s3, Event.task_started task.id :: out.2 ++ finalEvents)

/-- `scheduler_create_task`: `id` is the fresh UUID, `now` the `now_ms()`
reading.  Computes the initial `next_run` only when `enabled`, inserts with
`last_run = NULL`, `updated_at = NULL`.  Returns the new id. -/
def scheduler_create_task (env : Env) (store : Store)
    (name : String) (description : Option String)
    (trigger_type trigger_config action_type action_config : String)
    (enabled : Bool) (metadata : Option String)
    (id : String) (now : Int) : String × Store :=
  let next_run :=
    if enabled then compute_next_run env trigger_type trigger_config now
    else none
  (id,
    { store with tasks := store.tasks ++
        [{ id := id, name := name, description := description,
           trigger_type := trigger_type, trigger_config := trigger_config,
           action_type := action_type, action_config := action_config,
           enabled := enabled, last_run := none, next_run := next_run,
           metadata := metadata, created_at := now, updated_at := none }] })

/-- `scheduler_get_task`. -/
def scheduler_get_task (env : Env) (store : Store) (id : String) :
    Except String ApiTask :=
  match get_db_task store id with
  | none => Except.error "task not found"
  | some row => Except.ok (row_to_api_task env row)

/-- The `SET` clause of `scheduler_update_task`'s `UPDATE`, applied to one
matching row: each `COALESCE(?, col)` falls back to the row's prior value,
`next_run` and `updated_at` are set outright. -/
def apply_task_update
    (name description trigger_type trigger_config action_type action_config :
      Option String)
    (enabled : Option Bool) (metadata : Option String)
    (next_run : Option Int) (now : Int) (t : DbTaskRow) : DbTaskRow :=
  { t with
    name := coalesce name t.name
    description := coalesceOpt description t.description
    trigger_type := coalesce trigger_type t.trigger_type
    trigger_config := coalesce trigger_config t.trigger_config
    action_type := coalesce action_type t.action_type
    action_config := coalesce action_config t.action_config
    enabled := coalesce enabled t.enabled
    metadata := coalesceOpt metadata t.metadata
    next_run := next_run
    updated_at := some now }

/-- `scheduler_update_task`: partial update via `COALESCE`, with `next_run`
unconditionally recomputed from the effective trigger and effective `enabled`
at update time `now`; `NotFound` when the task does not exist. -/
def scheduler_update_task (env : Env) (store : Store) (id : String)
    (name description trigger_type trigger_config action_type action_config :
      Option String)
    (enabled : Option Bool) (metadata : Option String) (now : Int) :
    Except String Store :=
  match get_db_task store id with
  | none => Except.error "task not found"
  | some existing =>
    let final_trigger_type := coalesce trigger_type existing.trigger_type
    let final_trigger_config := coalesce trigger_config existing.trigger_config
    let final_enabled := coalesce enabled existing.enabled
    let next_run :=
      if final_enabled then
        compute_next_run env final_trigger_type final_trigger_config now
      else none
    Except.ok
      { store with tasks := store.tasks.map fun t =>
          if t.id == id then
            (apply_task_update name description trigger_type trigger_config
              action_type action_config enabled metadata next_run now t)
          else t }

/-- `scheduler_delete_task`: the single statement `DELETE FROM tasks WHERE
id = ?`.  The schema declares `FOREIGN KEY (task_id) REFERENCES tasks(id)
ON DELETE CASCADE`, but the connection opened by `open_db` never issues
`PRAGMA foreign_keys = ON` and SQLite leaves foreign-key enforcement off by
default, so the declared cascade never fires: the `task_executions` rows
referencing the deleted task survive. -/
def scheduler_delete_task (store : Store) (id : String) : Store :=
  { store with tasks := store.tasks.filter fun t => t.id != id }

/-- `scheduler_enable_task`: toggles `enabled`, recomputing `next_run` from
the existing trigger when enabling and clearing it when disabling. -/
def scheduler_enable_task (env : Env) (store : Store) (id : String)
    (enabled : Bool) (now : Int) : Except String Store :=
  match get_db_task store id with
  | none => Except.error "task not found"
  | some existing =>
    let next_run :=
      if enabled then
        compute_next_run env existing.trigger_type existing.trigger_config now
      else none
    Except.ok
      { store with tasks := store.tasks.map fun t =>
          if t.id == id then
            { t with
              enabled := enabled
              next_run := next_run
              updated_at := some now }
          else t }

/-- `scheduler_execute_now`: fetch the task (any task, enabled or not) and run
`execute_task` on it; `NotFound` leaves the store untouched and emits
nothing. -/
def scheduler_execute_now (env : Env) (store : Store) (id : String)
    (exec_id : String) (start_ms end_ms : Int) :
    Except String Unit × Store × List Event :=
  match get_db_task store id with
  | none => (Except.error "task not found", store, [])
  | some task =>
    let r := execute_task env store task exec_id start_ms end_ms
    (Except.ok (), r.1, r.2)

/-- The `ORDER BY started_at DESC` comparison of `scheduler_get_executions`. -/
def started_at_ge (a b : TaskExecRow) : Prop :=
  b.started_at ≤ a.started_at

instance : DecidableRel started_at_ge := fun a b =>
  inferInstanceAs (Decidable (_ ≤ _))

/-- `scheduler_get_executions`: `limit.unwrap_or(50).clamp(1, 200)` rows of
`WHERE task_id = ? ORDER BY started_at DESC LIMIT ?`. -/
def scheduler_get_executions (store : Store) (task_id : String)
    (limit : Option Int) : List TaskExecRow :=
  let lim := rustClamp (limit.getD 50) 1 200
  (((store.execs.filter fun e => e.task_id == task_id).insertionSort
      started_at_ge).take lim.toNat)

/-- One `tick(app)`: read the time once, fetch the due tasks, execute each in
due order.  `supply` provides the per-execution fresh UUID and the two
`now_ms()` readings of each `execute_task` call. -/
def tick (env : Env) (store : Store) (now_ms : Int)
    (supply : List (String × Int × Int)) : Store × List Event :=
  ((list_due_tasks store now_ms).zip supply).foldl
    (fun acc p =>
      let r := execute_task env acc.1 p.1 p.2.1 p.2.2.1 p.2.2.2
      (r.1, acc.2 ++ r.2))
    (store, [])

/-- The spec's invariant for one task row: a disabled task never has a
scheduled `next_run`. -/
def TaskInv (t : DbTaskRow) : Prop :=
  t.enabled = false → t.next_run = none

/-- The invariant over the whole store. -/
def StoreInv (s : Store) : Prop :=
  ∀ t ∈ s.tasks, TaskInv t

instance (t : DbTaskRow) : Decidable (TaskInv t) := by
  unfold TaskInv; infer_instance

instance (s : Store) : Decidable (StoreInv s) := by
  unfold StoreInv; infer_instance

/-! ## Concrete fixtures used to instantiate the theorems -/

/-- A concrete decoder environment: interval configs are decoded via a small
table (`"60"` decodes to `seconds = 60`, `"0"` to `0`, `"-5"` to `-5`), cron
expressions never parse, action configs never decode, payload rendering is
empty. -/
def testEnv : Env where
  decodeIntervalSeconds := fun s =>
    if s = "60" then some 60
    else if s = "0" then some 0
    else if s = "-5" then some (-5)
    else none
  decodeCronExpression := fun _ => none
  cronNextMs := fun _ _ => none
  decodeNotificationCfg := fun _ => Except.error "missing field"
  decodeAgentTaskCfg := fun _ => Except.error "missing field"
  decodeWorkflowCfg := fun _ => Except.error "missing field"
  renderNotificationPayload := fun _ => ""
  renderAgentTaskPayload := fun _ => ""
  renderWorkflowPayload := fun _ => ""
  parseMetadataJson := fun _ => none

/-- A disabled task with a 60-second interval trigger. -/
def disabledIntervalTask : DbTaskRow :=
  { id := "t1", name := "demo", description := none
    trigger_type := "interval", trigger_config := "60"
    action_type := "notification", action_config := "{}"
    enabled := false, last_run := none, next_run := none
    metadata := none, created_at := 0, updated_at := none }

/-- A store holding only `disabledIntervalTask`. -/
def disabledStore : Store := { tasks := [disabledIntervalTask], execs := [] }

/-- An enabled task with a 60-second interval trigger. -/
def enabledIntervalTask : DbTaskRow :=
  { id := "t1", name := "demo", description := none
    trigger_type := "interval", trigger_config := "60"
    action_type := "notification", action_config := "{}"
    enabled := true, last_run := none, next_run := some 60
    metadata := none, created_at := 0, updated_at := none }

/-- A store holding only `enabledIntervalTask`. -/
def enabledStore : Store := { tasks := [enabledIntervalTask], execs := [] }

/-- An enabled task whose action type is `script`. -/
def scriptTask : DbTaskRow := { enabledIntervalTask with action_type := "script" }

/-- A store holding only `scriptTask`. -/
def scriptStore : Store := { tasks := [scriptTask], execs := [] }

/-- A finished execution row referencing task `"t1"`. -/
def execRowT1 : TaskExecRow :=
  { id := "e0", task_id := "t1", status := "success", started_at := 5,
    completed_at := some 6, result := none, error := none, duration := some 1 }

/-- A store holding `enabledIntervalTask` and one execution referencing it. -/
def storeWithExec : Store :=
  { tasks := [enabledIntervalTask], execs := [execRowT1] }

/-! ## Helper lemmas -/

/-- `find?` commutes with a map that does not change the value of the
predicate. -/
theorem find_map_pred_pres {α : Type} (p : α → Bool) (f : α → α)
    (hp : ∀ a, p (f a) = p a) :
    ∀ l : List α, (l.map fun a => if p a then f a else a).find? p
      = (l.find? p).map fun a => if p a then f a else a := by
  intro l
  induction l with
  | nil => rfl
  | cons a l ih =>
    by_cases h : p a = true
    · simp [List.find?, h, hp a]
    · simp only [Bool.not_eq_true] at h
      simp [List.find?, h, ih]

/-- `find?` skips a prefix on which the predicate is false. -/
theorem find_append_of_none {α : Type} (p : α → Bool) (l₁ l₂ : List α)
    (h : ∀ a ∈ l₁, p a = false) :
    (l₁ ++ l₂).find? p = l₂.find? p := by
  induction l₁ with
  | nil => rfl
  | cons a l ih =>
    simp only [List.cons_append, List.find?, h a (by simp)]
    exact ih fun a ha => h a (by simp [ha])

/-! ## Claim theorems -/

/-- **C5** (confirmed).  For every environment, every `fromMs` and every
interval trigger config that decodes to a `seconds` value: if `seconds > 0`
then `compute_next_run "interval" config fromMs = fromMs + seconds*1000`, and
if `seconds ≤ 0` the result is null. -/
theorem compute_next_run_interval_spec (env : Env) (cfg : String)
    (from_ms seconds : Int)
    (h : env.decodeIntervalSeconds cfg = some seconds) :
    (0 < seconds →
      compute_next_run env "interval" cfg from_ms
        = some (from_ms + seconds * 1000)) ∧
    (seconds ≤ 0 →
      compute_next_run env "interval" cfg from_ms = none) := by
  constructor
  · intro hs
    simp only [compute_next_run, h]
    rw [if_neg (by omega)]
  · intro hs
    simp only [compute_next_run, h]
    rw [if_pos hs]

/-- Witness for C5: with the test decoder, config `"60"` at `fromMs = 5`
yields `5 + 60*1000`, and config `"-5"` yields null. -/
theorem compute_next_run_interval_spec_witness :
    testEnv.decodeIntervalSeconds "60" = some 60 ∧
    compute_next_run testEnv "interval" "60" 5 = some (5 + 60 * 1000) ∧
    compute_next_run testEnv "interval" "-5" 5 = none :=
  ⟨rfl,
   (compute_next_run_interval_spec testEnv "60" 5 60 rfl).1 (by decide),
   (compute_next_run_interval_spec testEnv "-5" 5 (-5) rfl).2 (by decide)⟩

/-- **C7** (confirmed).  `executeNow` on an id not present in the store
returns the `NotFound` error, leaves the store unchanged (in particular writes
no `TaskExecution` row) and emits no event. -/
theorem execute_now_not_found_spec (env : Env) (store : Store)
    (id exec_id : String) (start_ms end_ms : Int)
    (h : get_db_task store id = none) :
    scheduler_execute_now env store id exec_id start_ms end_ms
      = (Except.error "task not found", store, []) := by
  simp [scheduler_execute_now, h]

/-- Witness for C7: `executeNow` on the empty store. -/
theorem execute_now_not_found_spec_witness :
    get_db_task ⟨[], []⟩ "missing" = none ∧
    scheduler_execute_now testEnv ⟨[], []⟩ "missing" "e1" 0 1
      = (Except.error "task not found", ⟨[], []⟩, []) :=
  ⟨rfl, execute_now_not_found_spec testEnv ⟨[], []⟩ "missing" "e1" 0 1 rfl⟩

/-- **C2** (code_bug).  The schema's own `ON DELETE CASCADE` declares that
deleting a task removes its executions, but the connection never enables
foreign-key enforcement, so `deleteTask` removes only the task row: on a
concrete store holding task `"t1"` and one execution referencing it,
`deleteTask("t1")` deletes the task, the execution row survives, and
`listExecutions("t1")` still returns it instead of the empty sequence. -/
theorem delete_task_leaves_orphan_executions :
    (scheduler_delete_task storeWithExec "t1").tasks = [] ∧
    (scheduler_delete_task storeWithExec "t1").execs = [execRowT1] ∧
    scheduler_get_executions (scheduler_delete_task storeWithExec "t1") "t1"
      none = [execRowT1] := by
  decide

/-- **C10** (confirmed).  `listExecutions` never errors on an out-of-range
limit: a supplied limit `≤ 0` behaves as `1`, a limit `> 200` behaves as
`200`, an absent limit behaves as `50`, and the number of returned rows never
exceeds the clamped limit. -/
theorem get_executions_limit_clamped (store : Store) (tid : String) :
    (∀ l : Int, l ≤ 0 →
      scheduler_get_executions store tid (some l)
        = scheduler_get_executions store tid (some 1)) ∧
    (∀ l : Int, 200 < l →
      scheduler_get_executions store tid (some l)
        = scheduler_get_executions store tid (some 200)) ∧
    (scheduler_get_executions store tid none
      = scheduler_get_executions store tid (some 50)) ∧
    (∀ lim : Option Int,
      (scheduler_get_executions store tid lim).length
        ≤ (rustClamp (lim.getD 50) 1 200).toNat) := by
  refine ⟨?_, ?_, ?_, ?_⟩
  · intro l hl
    have h : rustClamp l 1 200 = rustClamp 1 1 200 := by
      simp only [rustClamp]
      rw [if_pos (by omega)]
      norm_num
    simp only [scheduler_get_executions, Option.getD_some, h]
  · intro l hl
    have h : rustClamp l 1 200 = rustClamp 200 1 200 := by
      simp only [rustClamp]
      rw [if_neg (by omega), if_pos (by omega)]
      norm_num
    simp only [scheduler_get_executions, Option.getD_some, h]
  · rfl
  · intro lim
    simp only [scheduler_get_executions]
    exact List.length_take_le _ _

/-- Witness for C10 at concrete out-of-range limits. -/
theorem get_executions_limit_clamped_witness :
    scheduler_get_executions ⟨[], []⟩ "a" (some (-7))
      = scheduler_get_executions ⟨[], []⟩ "a" (some 1) ∧
    scheduler_get_executions ⟨[], []⟩ "a" (some 300)
      = scheduler_get_executions ⟨[], []⟩ "a" (some 200) ∧
    scheduler_get_executions ⟨[], []⟩ "a" none
      = scheduler_get_executions ⟨[], []⟩ "a" (some 50) :=
  ⟨(get_executions_limit_clamped ⟨[], []⟩ "a").1 (-7) (by decide),
   (get_executions_limit_clamped ⟨[], []⟩ "a").2.1 300 (by decide),
   (get_executions_limit_clamped ⟨[], []⟩ "a").2.2.1⟩

/-- Unpacking the due filter. -/
theorem due_pred_eq_true (now_ms : Int) (t : DbTaskRow)
    (h : due_pred now_ms t = true) :
    t.enabled = true ∧ ∃ nr, t.next_run = some nr ∧ nr ≤ now_ms := by
  simp only [due_pred, Bool.and_eq_true] at h
  refine ⟨h.1, ?_⟩
  rcases hnr : t.next_run with _ | nr
  · rw [hnr] at h
    exact absurd h.2 (by simp)
  · rw [hnr] at h
    exact ⟨nr, rfl, by simpa using h.2⟩

/-- **C4** (confirmed).  For every store state and every time `nowMs`,
`listDueTasks(nowMs)` returns at most 20 tasks, every returned task is a
stored task with `enabled = true` and a non-null `next_run ≤ nowMs`, and the
returned sequence is ordered ascending by `next_run`. -/
theorem list_due_tasks_spec (store : Store) (now_ms : Int) :
    (list_due_tasks store now_ms).length ≤ 20 ∧
    (∀ t ∈ list_due_tasks store now_ms,
      t ∈ store.tasks ∧ t.enabled = true ∧
      ∃ nr, t.next_run = some nr ∧ nr ≤ now_ms) ∧
    (list_due_tasks store now_ms).Pairwise
      (fun a b => ∀ x y, a.next_run = some x → b.next_run = some y → x ≤ y) := by
  have hmem : ∀ t ∈ list_due_tasks store now_ms,
      t ∈ store.tasks ∧ due_pred now_ms t = true := by
    intro t ht
    have h1 : t ∈ (store.tasks.filter (due_pred now_ms)).insertionSort next_run_le :=
      List.mem_of_mem_take ht
    have h2 : t ∈ store.tasks.filter (due_pred now_ms) :=
      (List.perm_insertionSort next_run_le _).mem_iff.mp h1
    exact ⟨List.mem_of_mem_filter h2, List.of_mem_filter h2⟩
  refine ⟨List.length_take_le _ _, ?_, ?_⟩
  · intro t ht
    obtain ⟨hm, hp⟩ := hmem t ht
    obtain ⟨he, hnr⟩ := due_pred_eq_true now_ms t hp
    exact ⟨hm, he, hnr⟩
  · have hsorted :
        ((store.tasks.filter (due_pred now_ms)).insertionSort next_run_le).Pairwise
          next_run_le :=
      List.sorted_insertionSort next_run_le _
    have htake : (list_due_tasks store now_ms).Pairwise next_run_le :=
      List.Pairwise.sublist (List.take_sublist 20 _) hsorted
    refine List.Pairwise.imp_of_mem ?_ htake
    intro a b ha hb hab x y hax hby
    have hr : a.next_run.getD 0 ≤ b.next_run.getD 0 := hab
    rw [hax, hby] at hr
    simpa using hr

/-- **C8** (confirmed).  `createTask` followed by `getTask` on the returned id
yields a task whose trigger type/config and action type/config are exactly the
strings passed to `createTask` (the store keeps the opaque config text
verbatim).  The id is fresh, as UUIDs are. -/
theorem create_then_get_roundtrip (env : Env) (store : Store)
    (name : String) (description : Option String)
    (trigger_type trigger_config action_type action_config : String)
    (enabled : Bool) (metadata : Option String) (id : String) (now : Int)
    (hfresh : ∀ t ∈ store.tasks, t.id ≠ id) :
    (scheduler_create_task env store name description trigger_type
        trigger_config action_type action_config enabled metadata id now).1
      = id ∧
    ∃ task : ApiTask,
      scheduler_get_task env
          (scheduler_create_task env store name description trigger_type
            trigger_config action_type action_config enabled metadata id now).2
          id
        = Except.ok task ∧
      task.trigger = ⟨trigger_type, trigger_config⟩ ∧
      task.action = ⟨action_type, action_config⟩ := by
  have hf : ∀ t ∈ store.tasks, (t.id == id) = false := by
    intro t ht
    simpa [beq_eq_false_iff_ne] using hfresh t ht
  refine ⟨rfl, ?_⟩
  refine ⟨row_to_api_task env
    { id := id, name := name, description := description
      trigger_type := trigger_type, trigger_config := trigger_config
      action_type := action_type, action_config := action_config
      enabled := enabled, last_run := none
      next_run := if enabled then
          compute_next_run env trigger_type trigger_config now
        else none
      metadata := metadata, created_at := now, updated_at := none },
    ?_, rfl, rfl⟩
  simp only [scheduler_get_task, get_db_task, scheduler_create_task]
  rw [find_append_of_none _ _ _ hf]
  simp [List.find?]

/-- Witness for C8: create in the empty store and read back. -/
theorem create_then_get_roundtrip_witness :
    (scheduler_create_task testEnv ⟨[], []⟩ "n" none "interval" "60"
        "notification" "{}" true none "id1" 7).1 = "id1" ∧
    ∃ task : ApiTask,
      scheduler_get_task testEnv
          (scheduler_create_task testEnv ⟨[], []⟩ "n" none "interval" "60"
            "notification" "{}" true none "id1" 7).2 "id1"
        = Except.ok task ∧
      task.trigger = ⟨"interval", "60"⟩ ∧
      task.action = ⟨"notification", "{}"⟩ :=
  create_then_get_roundtrip testEnv ⟨[], []⟩ "n" none "interval" "60"
    "notification" "{}" true none "id1" 7 (by simp)

/-- `get_db_task` after an `UPDATE ... WHERE id = ?` whose `SET` clause keeps
the id: the found row is the updated found row. -/
theorem get_db_task_map_update (store : Store) (id : String)
    (f : DbTaskRow → DbTaskRow) (hf : ∀ t, (f t).id = t.id) :
    get_db_task
        { store with
          tasks := store.tasks.map fun t => if t.id == id then f t else t } id
      = (get_db_task store id).map fun t => if t.id == id then f t else t := by
  show (store.tasks.map fun t => if t.id == id then f t else t).find?
      (fun t => t.id == id)
    = (store.tasks.find? fun t => t.id == id).map
        fun t => if t.id == id then f t else t
  exact find_map_pred_pres (fun t => t.id == id) f (fun a => by simp [hf a])
    store.tasks

/-- **C6** (confirmed).  `updateTask` fails with `NotFound` exactly when the
id is absent; otherwise it keeps the execution table and the other tasks
untouched, leaves every unsupplied field of the target row at its prior value
(`coalesce none` = prior), sets every supplied field, and unconditionally
recomputes `next_run` from the resulting effective trigger type/config and
effective `enabled` flag using the update time `now` as reference. -/
theorem update_task_spec (env : Env) (store : Store) (id : String)
    (name description trigger_type trigger_config action_type action_config :
      Option String)
    (enabled : Option Bool) (metadata : Option String) (now : Int) :
    (scheduler_update_task env store id name description trigger_type
        trigger_config action_type action_config enabled metadata now
      = Except.error "task not found" ↔ get_db_task store id = none) ∧
    ∀ existing, get_db_task store id = some existing →
      ∃ s', scheduler_update_task env store id name description trigger_type
            trigger_config action_type action_config enabled metadata now
          = Except.ok s' ∧
        s'.execs = store.execs ∧
        s'.tasks.length = store.tasks.length ∧
        (∀ t ∈ store.tasks, t.id ≠ id → t ∈ s'.tasks) ∧
        get_db_task s' id = some
          { existing with
            name := coalesce name existing.name
            description := coalesceOpt description existing.description
            trigger_type := coalesce trigger_type existing.trigger_type
            trigger_config := coalesce trigger_config existing.trigger_config
            action_type := coalesce action_type existing.action_type
            action_config := coalesce action_config existing.action_config
            enabled := coalesce enabled existing.enabled
            metadata := coalesceOpt metadata existing.metadata
            next_run :=
              if coalesce enabled existing.enabled then
                compute_next_run env
                  (coalesce trigger_type existing.trigger_type)
                  (coalesce trigger_config existing.trigger_config) now
              else none
            updated_at := some now } := by
  constructor
  · cases h : get_db_task store id with
    | none => simp [scheduler_update_task, h]
    | some e => simp [scheduler_update_task, h]
  · intro existing hex
    have hex' : store.tasks.find? (fun t => t.id == id) = some existing := hex
    have hpe := List.find?_some hex'
    refine ⟨{ store with tasks := store.tasks.map fun t =>
        if t.id == id then
          (apply_task_update name description trigger_type trigger_config
            action_type action_config enabled metadata
            (if coalesce enabled existing.enabled then
              compute_next_run env
                (coalesce trigger_type existing.trigger_type)
                (coalesce trigger_config existing.trigger_config) now
            else none) now t)
        else t }, ?_, rfl, by simp, ?_, ?_⟩
    · simp only [scheduler_update_task, hex]
    · intro t ht hne
      refine List.mem_map.mpr ⟨t, ht, ?_⟩
      rw [if_neg (by simp [hne])]
    · rw [get_db_task_map_update store id
        (fun t => apply_task_update name description trigger_type
          trigger_config action_type action_config enabled metadata
          (if coalesce enabled existing.enabled then
            compute_next_run env
              (coalesce trigger_type existing.trigger_type)
              (coalesce trigger_config existing.trigger_config) now
          else none) now t)
        (fun t => rfl)]
      rw [show get_db_task store id = some existing from hex]
      simp only [Option.map_some']
      rw [if_pos hpe]
      rfl

/-- Witness for C6: updating only the name of a stored enabled interval task
recomputes `next_run` from the update time and keeps every other field. -/
theorem update_task_spec_witness :
    ∃ s', scheduler_update_task testEnv enabledStore "t1" (some "n2") none none
          none none none none none 999 = Except.ok s' ∧
      s'.execs = enabledStore.execs ∧
      s'.tasks.length = enabledStore.tasks.length ∧
      (∀ t ∈ enabledStore.tasks, t.id ≠ "t1" → t ∈ s'.tasks) ∧
      get_db_task s' "t1" = some
        { enabledIntervalTask with
          name := "n2", next_run := some 60999, updated_at := some 999 } :=
  (update_task_spec testEnv enabledStore "t1" (some "n2") none none none none
    none none none 999).2 enabledIntervalTask rfl

/-- A conditional-update map is the identity on a list none of whose elements
satisfy the condition. -/
theorem map_if_not_mem {α : Type} (p : α → Bool) (g : α → α) (l : List α)
    (h : ∀ a ∈ l, p a = false) :
    (l.map fun a => if p a then g a else a) = l := by
  induction l with
  | nil => rfl
  | cons a l ih =>
    simp only [List.map_cons, h a (by simp), Bool.false_eq_true, if_false,
      List.cons.injEq, true_and]
    exact ih fun a ha => h a (by simp [ha])

/-- Under the `id` PRIMARY KEY constraint (no duplicate ids), two stored rows
with the same id are the same row. -/
theorem mem_id_inj {l : List DbTaskRow}
    (hnd : (l.map fun t => t.id).Nodup)
    {a b : DbTaskRow} (ha : a ∈ l) (hb : b ∈ l) (hid : a.id = b.id) :
    a = b := by
  induction l with
  | nil => cases ha
  | cons x l ih =>
    rw [List.map_cons, List.nodup_cons] at hnd
    rcases List.mem_cons.mp ha with rfl | hal
    · rcases List.mem_cons.mp hb with rfl | hbl
      · rfl
      · exact absurd (hid ▸ List.mem_map.mpr ⟨b, hbl, rfl⟩) hnd.1
    · rcases List.mem_cons.mp hb with rfl | hbl
      · exact absurd (hid ▸ List.mem_map.mpr ⟨a, hal, rfl⟩) hnd.1
      · exact ih hnd.2 hal hbl

/-- The task-table effect of `execute_task`: exactly the rows with the
executed task's id get `last_run` / `next_run` / `updated_at` set, with
`next_run` recomputed from the trigger at completion time — regardless of the
row's `enabled` flag. -/
theorem execute_task_tasks (env : Env) (store : Store) (task : DbTaskRow)
    (exec_id : String) (start_ms end_ms : Int) :
    (execute_task env store task exec_id start_ms end_ms).1.tasks
      = store.tasks.map fun t =>
          if t.id == task.id then
            { t with
              last_run := some end_ms
              next_run := compute_next_run env task.trigger_type
                task.trigger_config end_ms
              updated_at := some end_ms }
          else t := rfl

/-- The execution-table effect of `execute_task`: exactly one new row is
appended, carrying the dispatch outcome, the two timestamps and the
saturating duration (assuming the generated execution id is fresh, as UUIDs
are). -/
theorem execute_task_execs (env : Env) (store : Store) (task : DbTaskRow)
    (exec_id : String) (start_ms end_ms : Int)
    (hfresh : ∀ e ∈ store.execs, e.id ≠ exec_id) :
    (execute_task env store task exec_id start_ms end_ms).1.execs
      = store.execs ++
        [{ id := exec_id
           task_id := task.id
           status := (dispatch_action env task.action_type
             task.action_config).1.status
           started_at := start_ms
           completed_at := some end_ms
           result := (dispatch_action env task.action_type
             task.action_config).1.result
           error := (dispatch_action env task.action_type
             task.action_config).1.error
           duration := some (i64SatSub end_ms start_ms) }] := by
  have hfk : ∀ e ∈ store.execs, (e.id == exec_id) = false := by
    intro e he
    simpa [beq_eq_false_iff_ne] using hfresh e he
  show ((store.execs ++
      [{ id := exec_id, task_id := task.id, status := "running",
         started_at := start_ms, completed_at := none, result := none,
         error := none, duration := none : TaskExecRow }]).map fun e =>
        if e.id == exec_id then
          { e with
            status := (dispatch_action env task.action_type
              task.action_config).1.status
            completed_at := some end_ms
            result := (dispatch_action env task.action_type
              task.action_config).1.result
            error := (dispatch_action env task.action_type
              task.action_config).1.error
            duration := some (i64SatSub end_ms start_ms) }
        else e)
    = _
  rw [List.map_append]
  congr 1
  · exact map_if_not_mem _ _ store.execs hfk
  · simp

/-- **C9** (confirmed).  For every existing task — with no hypothesis on its
`enabled` flag — `executeNow` performs a full execution attempt: it succeeds,
appends exactly one `TaskExecution` carrying the dispatch outcome, and sets
the task's `last_run`, `updated_at` and a `next_run` recomputed from the
trigger, exactly as for an enabled task. -/
theorem execute_now_ignores_enabled (env : Env) (store : Store)
    (id exec_id : String) (start_ms end_ms : Int) (task : DbTaskRow)
    (htask : get_db_task store id = some task)
    (hfresh : ∀ e ∈ store.execs, e.id ≠ exec_id) :
    (scheduler_execute_now env store id exec_id start_ms end_ms).1
      = Except.ok () ∧
    (scheduler_execute_now env store id exec_id start_ms end_ms).2.1.execs
      = store.execs ++
        [{ id := exec_id
           task_id := task.id
           status := (dispatch_action env task.action_type
             task.action_config).1.status
           started_at := start_ms
           completed_at := some end_ms
           result := (dispatch_action env task.action_type
             task.action_config).1.result
           error := (dispatch_action env task.action_type
             task.action_config).1.error
           duration := some (i64SatSub end_ms start_ms) }] ∧
    (scheduler_execute_now env store id exec_id start_ms end_ms).2.1.tasks
      = store.tasks.map fun t =>
          if t.id == task.id then
            { t with
              last_run := some end_ms
              next_run := compute_next_run env task.trigger_type
                task.trigger_config end_ms
              updated_at := some end_ms }
          else t := by
  have hs : (scheduler_execute_now env store id exec_id start_ms end_ms).2.1
      = (execute_task env store task exec_id start_ms end_ms).1 := by
    simp [scheduler_execute_now, htask]
  refine ⟨by simp [scheduler_execute_now, htask], ?_, ?_⟩
  · rw [hs, execute_task_execs env store task exec_id start_ms end_ms hfresh]
  · rw [hs, execute_task_tasks env store task exec_id start_ms end_ms]

/-- Witness for C9: `executeNow` on a stored task with `enabled = false`
still records a completed execution and re-populates `next_run` from the
interval trigger. -/
theorem execute_now_ignores_enabled_witness :
    disabledIntervalTask.enabled = false ∧
    get_db_task disabledStore "t1" = some disabledIntervalTask ∧
    (scheduler_execute_now testEnv disabledStore "t1" "e1" 100 200).1
      = Except.ok () ∧
    (scheduler_execute_now testEnv disabledStore "t1" "e1" 100 200).2.1.execs
      = [{ id := "e1", task_id := "t1", status := "failed",
           started_at := 100, completed_at := some 200, result := none,
           error := some "invalid notification action config: missing field",
           duration := some 100 }] ∧
    (scheduler_execute_now testEnv disabledStore "t1" "e1" 100 200).2.1.tasks
      = [{ disabledIntervalTask with
            last_run := some 200, next_run := some 60200,
            updated_at := some 200 }] := by
  obtain ⟨h1, h2, h3⟩ := execute_now_ignores_enabled testEnv disabledStore
    "t1" "e1" 100 200 disabledIntervalTask rfl (by simp [disabledStore])
  exact ⟨rfl, rfl, h1, h2.trans (by decide), h3.trans (by decide)⟩

/-- **C3** counterexample: on a concrete `script` task, `executeNow` records
exactly one execution, but its `error` text is not `"unsupported action
type"` (the code writes `"script action is not supported yet"`). -/
theorem script_error_text_counterexample :
    (scheduler_execute_now testEnv scriptStore "t1" "e1" 10 20).2.1.execs.length
      = 1 ∧
    ¬ ∀ e ∈ (scheduler_execute_now testEnv scriptStore "t1" "e1" 10 20).2.1.execs,
        e.error = some "unsupported action type" := by
  decide

/-- **C3** (corrected).  Executing a task whose action type is `script` —
directly via `execute_task` (the common path of a tick and of `executeNow`)
or through `executeNow` — appends exactly one `TaskExecution` with status
`failed`, no result, and error text `"script action is not supported yet"`. -/
theorem script_execution_spec (env : Env) (store : Store) (task : DbTaskRow)
    (id exec_id : String) (start_ms end_ms : Int)
    (htask : get_db_task store id = some task)
    (hscript : task.action_type = "script")
    (hfresh : ∀ e ∈ store.execs, e.id ≠ exec_id) :
    (execute_task env store task exec_id start_ms end_ms).1.execs
      = store.execs ++
        [{ id := exec_id, task_id := task.id, status := "failed",
           started_at := start_ms, completed_at := some end_ms,
           result := none,
           error := some "script action is not supported yet",
           duration := some (i64SatSub end_ms start_ms) }] ∧
    (scheduler_execute_now env store id exec_id start_ms end_ms).1
      = Except.ok () ∧
    (scheduler_execute_now env store id exec_id start_ms end_ms).2.1.execs
      = store.execs ++
        [{ id := exec_id, task_id := task.id, status := "failed",
           started_at := start_ms, completed_at := some end_ms,
           result := none,
           error := some "script action is not supported yet",
           duration := some (i64SatSub end_ms start_ms) }] := by
  have hd : dispatch_action env task.action_type task.action_config
      = (⟨"failed", none, some "script action is not supported yet"⟩, []) := by
    rw [hscript]
    rfl
  have he := execute_task_execs env store task exec_id start_ms end_ms hfresh
  rw [hd] at he
  have hs : (scheduler_execute_now env store id exec_id start_ms end_ms).2.1
      = (execute_task env store task exec_id start_ms end_ms).1 := by
    simp [scheduler_execute_now, htask]
  exact ⟨he, by simp [scheduler_execute_now, htask], hs ▸ he⟩

/-- Witness for C3 (amended): the concrete `script` task. -/
theorem script_execution_spec_witness :
    get_db_task scriptStore "t1" = some scriptTask ∧
    scriptTask.action_type = "script" ∧
    (scheduler_execute_now testEnv scriptStore "t1" "e1" 10 20).1
      = Except.ok () ∧
    (scheduler_execute_now testEnv scriptStore "t1" "e1" 10 20).2.1.execs
      = [{ id := "e1", task_id := "t1", status := "failed",
           started_at := 10, completed_at := some 20, result := none,
           error := some "script action is not supported yet",
           duration := some 10 }] := by
  obtain ⟨h1, h2, h3⟩ := script_execution_spec testEnv scriptStore scriptTask
    "t1" "e1" 10 20 rfl rfl (by simp [scriptStore])
  exact ⟨rfl, rfl, h2, h3.trans (by decide)⟩

/-- Every task returned by `list_due_tasks` is a stored row passing the due
filter. -/
theorem list_due_tasks_mem (store : Store) (now_ms : Int) :
    ∀ t ∈ list_due_tasks store now_ms,
      t ∈ store.tasks ∧ due_pred now_ms t = true := by
  intro t ht
  have h1 : t ∈ (store.tasks.filter (due_pred now_ms)).insertionSort next_run_le :=
    List.mem_of_mem_take ht
  have h2 : t ∈ store.tasks.filter (due_pred now_ms) :=
    (List.perm_insertionSort next_run_le _).mem_iff.mp h1
  exact ⟨List.mem_of_mem_filter h2, List.of_mem_filter h2⟩

/-- `execute_task` keeps the disabled-tasks-have-no-`next_run` invariant
provided every stored row sharing the executed task's id is enabled. -/
theorem execute_task_preserves_inv (env : Env) (s : Store) (task : DbTaskRow)
    (exec_id : String) (start_ms end_ms : Int)
    (hInv : StoreInv s)
    (hen : ∀ r ∈ s.tasks, r.id = task.id → r.enabled = true) :
    StoreInv (execute_task env s task exec_id start_ms end_ms).1 := by
  intro t' ht'
  rw [execute_task_tasks] at ht'
  obtain ⟨t, ht, rfl⟩ := List.mem_map.mp ht'
  by_cases h : (t.id == task.id) = true
  · rw [if_pos h]
    intro hfalse
    exact absurd (hen t ht (by simpa using h)) (by simpa using hfalse)
  · rw [if_neg h]
    exact hInv t ht

/-- `execute_task` never changes the id or the `enabled` flag of any task
row. -/
theorem execute_task_id_enabled (env : Env) (s : Store) (task : DbTaskRow)
    (exec_id : String) (start_ms end_ms : Int) :
    ∀ t' ∈ (execute_task env s task exec_id start_ms end_ms).1.tasks,
      ∃ t ∈ s.tasks, t'.id = t.id ∧ t'.enabled = t.enabled := by
  intro t' ht'
  rw [execute_task_tasks] at ht'
  obtain ⟨t, ht, rfl⟩ := List.mem_map.mp ht'
  refine ⟨t, ht, ?_⟩
  by_cases h : (t.id == task.id) = true <;> simp [h]

/-- The sequential per-task fold of a tick keeps the invariant as long as
every row sharing an id with one of the tasks to execute is enabled. -/
theorem tick_fold_inv (env : Env) :
    ∀ (pairs : List (DbTaskRow × String × Int × Int)) (s : Store)
      (evs : List Event),
      StoreInv s →
      (∀ p ∈ pairs, ∀ r ∈ s.tasks, r.id = p.1.id → r.enabled = true) →
      StoreInv (pairs.foldl (fun acc p =>
        ((execute_task env acc.1 p.1 p.2.1 p.2.2.1 p.2.2.2).1,
         acc.2 ++ (execute_task env acc.1 p.1 p.2.1 p.2.2.1 p.2.2.2).2))
        (s, evs)).1 := by
  intro pairs
  induction pairs with
  | nil => intro s evs hInv _; exact hInv
  | cons p ps ih =>
    intro s evs hInv hen
    simp only [List.foldl_cons]
    apply ih
    · exact execute_task_preserves_inv env s p.1 p.2.1 p.2.2.1 p.2.2.2 hInv
        (hen p (by simp))
    · intro q hq r hr hid
      obtain ⟨r0, hr0, hid0, hen0⟩ :=
        execute_task_id_enabled env s p.1 p.2.1 p.2.2.1 p.2.2.2 r hr
      rw [hen0]
      exact hen q (by simp [hq]) r0 hr0 (by rw [← hid0, hid])

/-- **C1** (corrected).  The invariant "`enabled = false` implies `next_run`
is null" holds after `createTask`, `updateTask`, `setEnabled`, `deleteTask`
and the scheduler tick (given the `id` PRIMARY KEY constraint) — but not
after `executeNow`, which re-schedules even a disabled task (see the
counterexample). -/
theorem disabled_next_run_invariant (env : Env) (store : Store)
    (hInv : StoreInv store)
    (hNodup : (store.tasks.map fun t => t.id).Nodup) :
    (∀ (name : String) (description : Option String)
        (trigger_type trigger_config action_type action_config : String)
        (enabled : Bool) (metadata : Option String) (id : String) (now : Int),
      StoreInv (scheduler_create_task env store name description trigger_type
        trigger_config action_type action_config enabled metadata id now).2) ∧
    (∀ (id : String)
        (name description trigger_type trigger_config action_type
          action_config : Option String)
        (enabled : Option Bool) (metadata : Option String) (now : Int)
        (s' : Store),
      scheduler_update_task env store id name description trigger_type
          trigger_config action_type action_config enabled metadata now
        = Except.ok s' → StoreInv s') ∧
    (∀ (id : String) (enabled : Bool) (now : Int) (s' : Store),
      scheduler_enable_task env store id enabled now = Except.ok s' →
        StoreInv s') ∧
    (∀ id : String, StoreInv (scheduler_delete_task store id)) ∧
    (∀ (now : Int) (supply : List (String × Int × Int)),
      StoreInv (tick env store now supply).1) := by
  refine ⟨?_, ?_, ?_, ?_, ?_⟩
  · intro nm ds tt tc aty ac en md idv now t ht
    rcases List.mem_append.mp ht with h | h
    · exact hInv t h
    · rw [List.mem_singleton] at h
      subst h
      intro hfalse
      have hen : en = false := by simpa using hfalse
      subst hen
      simp
  · intro idv nm ds tt tc aty ac en md now s' hok
    cases hfind : get_db_task store idv with
    | none => simp [scheduler_update_task, hfind] at hok
    | some existing =>
      simp only [scheduler_update_task, hfind, Except.ok.injEq] at hok
      subst hok
      intro t' ht'
      obtain ⟨t, ht, rfl⟩ := List.mem_map.mp ht'
      by_cases h : (t.id == idv) = true
      · rw [if_pos h]
        have hmem_ex : existing ∈ store.tasks :=
          List.mem_of_find?_eq_some hfind
        have hfe := List.find?_some
          (show store.tasks.find? (fun u => u.id == idv) = some existing
            from hfind)
        have hte : t = existing := mem_id_inj hNodup ht hmem_ex (by
          have h1 : t.id = idv := by simpa using h
          have h2 : existing.id = idv := by simpa using hfe
          rw [h1, h2])
        subst hte
        intro hfalse
        have hcf : coalesce en t.enabled = false := by
          simpa [apply_task_update] using hfalse
        simp [apply_task_update, hcf]
      · rw [if_neg h]
        exact hInv t ht
  · intro idv en now s' hok
    cases hfind : get_db_task store idv with
    | none => simp [scheduler_enable_task, hfind] at hok
    | some existing =>
      simp only [scheduler_enable_task, hfind, Except.ok.injEq] at hok
      subst hok
      intro t' ht'
      obtain ⟨t, ht, rfl⟩ := List.mem_map.mp ht'
      by_cases h : (t.id == idv) = true
      · rw [if_pos h]
        intro hfalse
        have hen : en = false := by simpa using hfalse
        subst hen
        simp
      · rw [if_neg h]
        exact hInv t ht
  · intro idv t ht
    exact hInv t (List.mem_of_mem_filter ht)
  · intro now supply
    apply tick_fold_inv env _ store [] hInv
    intro p hp r hr hid
    obtain ⟨task2, rest⟩ := p
    have hdue : task2 ∈ list_due_tasks store now := (List.of_mem_zip hp).1
    have hm := list_due_tasks_mem store now task2 hdue
    have hen1 : task2.enabled = true := (due_pred_eq_true now task2 hm.2).1
    have hre : r = task2 := mem_id_inj hNodup hr hm.1 hid
    rw [hre]
    exact hen1

/-- **C1** counterexample: from a reachable state holding one disabled
interval task (where the invariant holds), `executeNow` leaves the task
disabled but sets its `next_run` non-null — the invariant is not preserved
by `executeNow`. -/
theorem executeNow_disabled_breaks_invariant :
    StoreInv disabledStore ∧
    ¬ StoreInv (scheduler_execute_now testEnv disabledStore "t1" "e1"
        100 200).2.1 := by
  decide

/-- Witness for C1 (amended), instantiated at the one-disabled-task store. -/
theorem disabled_next_run_invariant_witness :
    StoreInv disabledStore ∧
    (disabledStore.tasks.map fun t => t.id).Nodup ∧
    (∀ id : String, StoreInv (scheduler_delete_task disabledStore id)) ∧
    (∀ (now : Int) (supply : List (String × Int × Int)),
      StoreInv (tick testEnv disabledStore now supply).1) := by
  have h := disabled_next_run_invariant testEnv disabledStore (by decide)
    (by decide)
  exact ⟨by decide, by decide, h.2.2.2.1, h.2.2.2.2⟩

/-- Witness for C4 at a concrete store and time. -/
theorem list_due_tasks_spec_witness :
    (list_due_tasks enabledStore 100).length ≤ 20 ∧
    (∀ t ∈ list_due_tasks enabledStore 100,
      t ∈ enabledStore.tasks ∧ t.enabled = true ∧
      ∃ nr, t.next_run = some nr ∧ nr ≤ 100) :=
  ⟨(list_due_tasks_spec enabledStore 100).1,
   (list_due_tasks_spec enabledStore 100).2.1⟩
